import Mathlib

/-!
Verification of the claim–download–extract–writeback engine in
`process_pdfs.py` (Postgres URL → PDF → text extractor).

Shallow embedding conventions:
* Python strings are `List Char` (`Str`); Python `s[:n]` is `List.take n`,
  `"x".join` / `str.strip` / `str.rstrip` are modelled explicitly below.
* Byte strings are `List Nat`.
* SQL `NULL`-able columns are `Option _`; timestamps are abstract `Nat`s
  supplied as parameters (the SQL `now()`).
* The documents table is a `List Row`; row locks held by other
  transactions are an explicit list of locked ids, so that
  `FOR UPDATE SKIP LOCKED` becomes: filter out locked rows, sort by id,
  take the batch limit, and the returned ids become locked.
* Network responses (HEAD / GET) and the pypdf parse of a byte string are
  oracles passed in as explicit data.
-/

namespace PdfEngine

/-- Python `str` modelled as a list of characters. -/
abbrev Str := List Char

/-- Python's default whitespace set for `str.strip` / `str.rstrip`
(space, tab, newline, carriage return, vertical tab, form feed). -/
def pyIsSpace (c : Char) : Bool :=
  c = ' ' || c = '\t' || c = '\n' || c = '\r' || c = '\x0b' || c = '\x0c'

/-- Python `str.rstrip()`: drop trailing whitespace. -/
def pyRstrip (s : Str) : Str := (s.reverse.dropWhile pyIsSpace).reverse

/-- Python `str.lstrip()`: drop leading whitespace. -/
def pyLstrip (s : Str) : Str := s.dropWhile pyIsSpace

/-- Python `str.strip()`: drop leading and trailing whitespace. -/
def pyStrip (s : Str) : Str := pyRstrip (pyLstrip s)

/-- One row of the documents table (`dev.documents`), with exactly the
columns `process_pdfs.py` reads or writes.  Nullable columns are
`Option`; `id` is the primary key used by `ORDER BY id`. -/
structure Row where
  id : Nat
  pdf_url : Option Str
  raw_text : Option Str
  processed : Option Bool
  process_attempts : Nat
  processed_at : Option Nat
  last_error : Option Str
  downloaded_at : Option Nat
  bytes : Option Nat
  mime : Option Str
  filename : Option Str
  sha256 : Option Str
deriving DecidableEq, Repr

/-- The `WHERE` clause of `fetch_batch`:
`processed IS DISTINCT FROM TRUE AND pdf_url IS NOT NULL AND
process_attempts < :max_attempts`. -/
def eligible (maxAttempts : Nat) (r : Row) : Bool :=
  !(r.processed == some true) && r.pdf_url.isSome &&
    (r.process_attempts < maxAttempts)

/-- `ORDER BY id` comparison on rows. -/
def rowLE (a b : Row) : Prop := a.id ≤ b.id

instance : DecidableRel rowLE := fun a b => Nat.decLe a.id b.id

instance : IsTotal Row rowLE := ⟨fun a b => Nat.le_total a.id b.id⟩

instance : IsTrans Row rowLE := ⟨fun _ _ _ h1 h2 => Nat.le_trans h1 h2⟩

/-- `fetch_batch(conn)`:
`SELECT id, pdf_url FROM {TABLE} WHERE processed IS DISTINCT FROM TRUE
AND pdf_url IS NOT NULL AND process_attempts < :max_attempts
ORDER BY id FOR UPDATE SKIP LOCKED LIMIT :batch`.
`locked` is the set of row ids currently locked by other transactions;
`SKIP LOCKED` skips those rows without blocking, so the query is a total
function of the table and the lock set. -/
def fetch_batch (batchSize maxAttempts : Nat) (locked : List Nat)
    (table : List Row) : List Row :=
  (List.insertionSort rowLE
      (table.filter fun r => eligible maxAttempts r && !(locked.contains r.id))).take
    batchSize

/-- `mark_success(conn, doc_id, ...)`: the success `UPDATE`.
`now` is the SQL `now()`; `pdf_bytes` the downloaded body;
`metaMime` / `metaFilename` the `:mime` / `:filename` parameters. -/
def mark_success (now : Nat) (text_out : Str) (metaMime metaFilename : Option Str)
    (pdf_bytes : List Nat) (sha_digest : Str) (r : Row) : Row :=
  { r with
    raw_text := some text_out
    processed := some true
    processed_at := some now
    process_attempts := r.process_attempts + 1
    last_error := none
    downloaded_at := r.downloaded_at.or (some now)
    bytes := some pdf_bytes.length
    mime := metaMime
    filename := r.filename.or metaFilename
    sha256 := some sha_digest }

/-- `mark_failure(conn, doc_id, err_msg)`: the failure `UPDATE`
(`process_attempts + 1`, `last_error = err_msg[:800]`,
`processed = FALSE`). -/
def mark_failure (err_msg : Str) (r : Row) : Row :=
  { r with
    process_attempts := r.process_attempts + 1
    last_error := some (err_msg.take 800)
    processed := some false }

/-- The outcome of the download/extract/fingerprint phase for one row,
as consumed by the write-back code in `process_once`: either the data a
success write needs, or the formatted error message of the raised
exception. -/
inductive Outcome where
  | success (now : Nat) (text_out : Str) (metaMime metaFilename : Option Str)
      (pdf_bytes : List Nat) (sha_digest : Str)
  | failure (err_msg : Str)

/-- Apply an `UPDATE ... WHERE id = :id` to the table. -/
def updateRow (i : Nat) (f : Row → Row) (table : List Row) : List Row :=
  table.map fun r => if r.id = i then f r else r

/-- Whether writing fingerprint `sha` to row `i` violates the table's
`UNIQUE` constraint on `sha256` (some other row already carries it). -/
def shaConflict (table : List Row) (i : Nat) (sha : Str) : Bool :=
  table.any fun r => (r.id != i) && (r.sha256 == some sha)

/-- The error message recorded on a duplicate-fingerprint conflict;
in the source it is `f"IntegrityError: {ie.orig}"`, whose tail comes
from the database driver and is abstracted here as fixed text. -/
def integrityErrMsg : Str :=
  "IntegrityError: duplicate key value violates unique constraint".data

/-- The success `UPDATE` inside its savepoint (`conn.begin_nested()`):
if the `sha256` uniqueness constraint is violated the savepoint rolls
back and none of the row's fields change (`IntegrityError`); otherwise
the update is applied. -/
def writeSuccess (table : List Row) (i : Nat) (now : Nat) (text_out : Str)
    (metaMime metaFilename : Option Str) (pdf_bytes : List Nat)
    (sha_digest : Str) : Except Unit (List Row) :=
  if shaConflict table i sha_digest then .error ()
  else .ok (updateRow i (mark_success now text_out metaMime metaFilename
    pdf_bytes sha_digest) table)

/-- The body of `process_once`'s per-row loop for one row: route the
download/extract outcome to `mark_success` (falling back to
`mark_failure` when the success write hits the uniqueness conflict) or
to `mark_failure`.  Returns the new table and whether the row counted
as a success. -/
def processRow (oracle : Row → Outcome) (table : List Row) (r : Row) :
    List Row × Bool :=
  match oracle r with
  | .failure err => (updateRow r.id (mark_failure err) table, false)
  | .success now txt m fn pb sha =>
    match writeSuccess table r.id now txt m fn pb sha with
    | .ok t' => (t', true)
    | .error _ => (updateRow r.id (mark_failure integrityErrMsg) table, false)

/-- `process_once`'s loop over the claimed rows, threading the table and
the success/failure counters. -/
def processRows (oracle : Row → Outcome) (table : List Row) :
    List Row → Nat → Nat → List Row × Nat × Nat
  | [], s, f => (table, s, f)
  | r :: rest, s, f =>
    let step := processRow oracle table r
    if step.2 then processRows oracle step.1 rest (s + 1) f
    else processRows oracle step.1 rest s (f + 1)

/-- `process_once(sess, batch_no)`: claim a batch, resolve every row,
return the new table plus `(len(rows), success, failures)`.  The outer
transaction (`engine.begin()`) commits when the function returns; a
single worker is modelled, so the lock set seen by `fetch_batch` is
empty. -/
def process_once (batchSize maxAttempts : Nat) (oracle : Row → Outcome)
    (table : List Row) : List Row × Nat × Nat × Nat :=
  let rows := fetch_batch batchSize maxAttempts [] table
  if rows.isEmpty then (table, 0, 0, 0)
  else
    let res := processRows oracle table rows 0 0
    (res.1, rows.length, res.2.1, res.2.2)

/-- The `while True` loop of `main()`, fuelled; returns the sizes of the
non-empty batches claimed, in order.  The loop breaks immediately when a
batch claims zero rows and after any batch smaller than the configured
batch size. -/
def mainLoop (batchSize maxAttempts : Nat) (oracle : Row → Outcome) :
    Nat → List Row → List Nat
  | 0, _ => []
  | fuel + 1, table =>
    let res := process_once batchSize maxAttempts oracle table
    let processed := res.2.1
    if processed = 0 then []
    else if processed < batchSize then [processed]
    else processed :: mainLoop batchSize maxAttempts oracle fuel res.1

/-! ### Downloader (`download_pdf`) -/

/-- Python truthiness of an optional string: `None` and `""` are falsy. -/
def strTruthy (o : Option Str) : Bool :=
  match o with
  | none => false
  | some s => !s.isEmpty

/-- Python `a or b` on optional strings (used for
`r.headers.get("Content-Type") or meta["mime"]`). -/
def pyOrStr (a b : Option Str) : Option Str :=
  if strTruthy a then a else b

/-- `pat in s` on lowered text: substring containment. -/
def hasSub (pat : Str) : Str → Bool
  | [] => pat.isEmpty
  | c :: t => pat.isPrefixOf (c :: t) || hasSub pat t

/-- `s.lower()` (ASCII case folding suffices for the `"pdf"` check). -/
def lowerStr (s : Str) : Str := s.map Char.toLower

/-- The observable content of a HEAD response: `Content-Type`, a
`Content-Length` that passed `cl.isdigit()` (already as a number), and
the result of `guess_filename(url, Content-Disposition)`, which is
abstracted as data since no claim depends on filename inference. -/
structure HeadResp where
  contentType : Option Str
  contentLength : Option Nat
  guessedFilename : Option Str

/-- The HEAD probe either raises (any exception) or yields a response. -/
inductive HeadOutcome where
  | failed
  | ok (h : HeadResp)

/-- The observable content of the GET response: final status, headers,
and the body as the chunk sequence `iter_content` yields. -/
structure GetResp where
  status : Nat
  contentType : Option Str
  guessedFilename : Option Str
  chunks : List (List Nat)

/-- The GET either raises a transport error (after the adapter's
retries are exhausted) or yields a response. -/
inductive GetOutcome where
  | failed
  | resp (g : GetResp)

/-- The `meta` dict built by `download_pdf`. -/
structure Meta where
  mime : Option Str
  filename : Option Str
  content_length : Option Nat
deriving DecidableEq, Repr

/-- The HEAD block of `download_pdf`, lines 129–143: the whole block is
wrapped in `try: ... except Exception: pass`, so the `ValueError`
raised when the declared length exceeds the cap is itself swallowed;
its only effect is that the `meta["filename"]` assignment after the
check never runs.  `maxPdfMB` is `MAX_PDF_MB`. -/
def headPhase (maxPdfMB : Nat) (h : HeadOutcome) : Meta :=
  match h with
  | .failed => ⟨none, none, none⟩
  | .ok hr =>
    let meta : Meta := ⟨hr.contentType, none, none⟩
    match hr.contentLength with
    | some cl =>
      let meta := { meta with content_length := some cl }
      if cl > maxPdfMB * 1024 * 1024 then meta
      else { meta with filename := hr.guessedFilename }
    | none => { meta with filename := hr.guessedFilename }

/-- The `iter_content` loop: skip empty chunks, append, count, and fail
as soon as the running count exceeds the cap.  Returns the outcome and
the number of body bytes read. -/
def readChunks (cap : Nat) : List (List Nat) → Nat → List Nat →
    Except Str (List Nat) × Nat
  | [], read, buf => (.ok buf, read)
  | c :: rest, read, buf =>
    if c.isEmpty then readChunks cap rest read buf
    else
      let read' := read + c.length
      if read' > cap then (.error "PDF too large (GET): exceeded cap".data, read')
      else readChunks cap rest read' (buf ++ c)

deriving instance DecidableEq for Except

/-- Result of `download_pdf`, instrumented with how many bytes of the
GET response body were read before returning. -/
structure DlResult where
  res : Except Str (List Nat × Meta)
  bodyBytesRead : Nat
deriving DecidableEq, Repr

/-- `download_pdf(sess, url)`: best-effort HEAD phase, then the GET with
`raise_for_status`, filename/MIME fallback from GET headers, the
content-type check, and the capped streaming read. -/
def download_pdf (maxPdfMB : Nat) (h : HeadOutcome) (g : GetOutcome) : DlResult :=
  let meta := headPhase maxPdfMB h
  match g with
  | .failed => ⟨.error "requests exception".data, 0⟩
  | .resp r =>
    if 400 ≤ r.status then ⟨.error "HTTPError".data, 0⟩
    else
      let meta := if strTruthy meta.filename then meta
        else { meta with filename := r.guessedFilename }
      let meta := { meta with mime := pyOrStr r.contentType meta.mime }
      if strTruthy meta.mime &&
          !(hasSub "pdf".data (lowerStr ((meta.mime).getD []))) then
        ⟨.error "Unexpected content-type".data, 0⟩
      else
        let cap := maxPdfMB * 1024 * 1024
        match readChunks cap r.chunks 0 [] with
        | (.error e, n) => ⟨.error e, n⟩
        | (.ok data, n) =>
          let meta := { meta with
            content_length := if n ≠ 0 then some n else meta.content_length }
          ⟨.ok (data, meta), n⟩

/-! ### Text extraction (`extract_text`) -/

/-- The separator string appended between pages in the source. -/
def PAGE_BREAK : Str := "\n\n----- PAGE BREAK -----\n\n".data

/-- pypdf's `page.extract_text()` for one page: raises `PdfReadError`,
or returns `None` / a string. -/
inductive PageRead where
  | failed
  | extracted (t : Option Str)

/-- pypdf's `PdfReader` on a non-empty byte string: raises
`PdfReadError`, or yields the page sequence. -/
inductive PdfParse where
  | unreadable
  | pages (ps : List PageRead)

/-- The page loop of `extract_text`: each page's text (`None` → `""`)
is right-stripped and appended to `out_lines`; a `PAGE_BREAK` entry
follows every page but the last; a page error fails the whole
extraction (the page index in the message is abstracted). -/
def buildLines : List PageRead → Except Str (List Str)
  | [] => .ok []
  | [p] =>
    match p with
    | .failed => .error "Failed to extract text on page".data
    | .extracted t => .ok [pyRstrip (t.getD [])]
  | p :: rest =>
    match p with
    | .failed => .error "Failed to extract text on page".data
    | .extracted t =>
      match buildLines rest with
      | .error e => .error e
      | .ok ls => .ok (pyRstrip (t.getD []) :: PAGE_BREAK :: ls)

/-- Python `"\n".join`. -/
def joinNL : List Str → Str
  | [] => []
  | [s] => s
  | s :: rest => s ++ '\n' :: joinNL rest

/-- `extract_text(pdf_bytes)`: empty bytes yield `""`; otherwise the
parse oracle plays pypdf, and the joined lines are stripped. -/
def extract_text (pdf_bytes : List Nat) (parse : PdfParse) : Except Str Str :=
  if pdf_bytes.isEmpty then .ok []
  else
    match parse with
    | .unreadable => .error "Failed to read PDF".data
    | .pages ps =>
      match buildLines ps with
      | .error e => .error e
      | .ok ls => .ok (pyStrip (joinNL ls))

/-- The effective separator between two consecutive pages' texts in the
output: the `"\n"` from the join, the `PAGE_BREAK` entry, and the next
`"\n"` from the join. -/
def sepFull : Str := '\n' :: (PAGE_BREAK ++ ['\n'])

/-- Join a list of strings with a separator between consecutive
elements and not after the last. -/
def joinWith (sep : Str) : List Str → Str
  | [] => []
  | [s] => s
  | s :: rest => s ++ sep ++ joinWith sep rest

/-- The `out_lines` list produced for pages that all parse, as a
function of the pages' `extract_text()` results. -/
def okLines : List (Option Str) → List Str
  | [] => []
  | [p] => [pyRstrip (p.getD [])]
  | p :: rest => pyRstrip (p.getD []) :: PAGE_BREAK :: okLines rest

/-- A parse in which every page decodes, with the given results. -/
def pagesOf (ps : List (Option Str)) : PdfParse :=
  .pages (ps.map PageRead.extracted)

/-! ### Helper lemmas -/

theorem dropWhile_self (p : Char → Bool) :
    ∀ l : List Char, List.dropWhile p (List.dropWhile p l) = List.dropWhile p l
  | [] => rfl
  | c :: t => by
    by_cases h : p c
    · simp [List.dropWhile_cons, h, dropWhile_self p t]
    · simp [List.dropWhile_cons, h]

theorem pyRstrip_idem (s : Str) : pyRstrip (pyRstrip s) = pyRstrip s := by
  simp [pyRstrip, List.reverse_reverse, dropWhile_self]

theorem buildLines_pagesOf :
    ∀ ps : List (Option Str),
      buildLines (ps.map PageRead.extracted) = .ok (okLines ps)
  | [] => rfl
  | [_] => rfl
  | p :: q :: rest => by
    have ih := buildLines_pagesOf (q :: rest)
    simp only [List.map_cons] at ih ⊢
    simp [buildLines, okLines, ih]

theorem joinNL_okLines :
    ∀ ps : List (Option Str),
      joinNL (okLines ps) =
        joinWith sepFull (ps.map fun p => pyRstrip (p.getD []))
  | [] => rfl
  | [_] => rfl
  | p :: q :: rest => by
    have ih := joinNL_okLines (q :: rest)
    obtain ⟨a, l, he⟩ : ∃ a l, okLines (q :: rest) = a :: l := by
      cases rest <;> exact ⟨_, _, rfl⟩
    rw [he] at ih
    simp only [okLines, he, List.map_cons]
    obtain ⟨b, m, hm⟩ : ∃ b m,
        ((q :: rest).map fun p => pyRstrip (p.getD [])) = b :: m := ⟨_, _, rfl⟩
    rw [hm] at ih
    simp only [List.map_cons] at hm
    simp [joinNL, joinWith, hm, ih, sepFull, List.append_assoc]

theorem extract_text_pagesOf (pdf_bytes : List Nat) (hb : pdf_bytes ≠ [])
    (ps : List (Option Str)) :
    extract_text pdf_bytes (pagesOf ps) =
      .ok (pyStrip (joinWith sepFull (ps.map fun p => pyRstrip (p.getD [])))) := by
  obtain ⟨b, bs, rfl⟩ := List.exists_cons_of_ne_nil hb
  simp [extract_text, pagesOf, buildLines_pagesOf, joinNL_okLines]

/-! ### Claims about `extract_text` (C8, C10) -/

/-- C8 (counterexample): as literally stated — "extract_text returns the
page texts … joined with one fixed separator … with the overall output
trimmed of leading and trailing whitespace" — the claim fails: on pages
extracting to `"Hello "` (trailing space) and `"World"`, the code's
output is not the overall-trimmed join of the raw page texts, because
each page is right-stripped individually first. -/
theorem extract_text_claim_fails_on_trailing_space :
    extract_text [37]
        (.pages [PageRead.extracted (some "Hello ".data),
                 PageRead.extracted (some "World".data)]) ≠
      .ok (pyStrip ("Hello ".data ++ sepFull ++ "World".data)) := by
  decide

/-- C8 (amended): for every non-empty byte input whose pages all decode,
`extract_text` returns the page texts, each right-stripped of trailing
whitespace, in page order (empty string for a page yielding no text),
joined with the fixed separator `"\n" + "\n\n----- PAGE BREAK -----\n\n"
+ "\n"` between consecutive pages and not after the last, with the
overall output trimmed of leading and trailing whitespace; and empty
byte input yields the empty string rather than an error. -/
theorem extract_text_joined_pages (pdf_bytes : List Nat) (hb : pdf_bytes ≠ [])
    (ps : List (Option Str)) (parse : PdfParse) :
    extract_text pdf_bytes (.pages (ps.map PageRead.extracted)) =
      .ok (pyStrip (joinWith sepFull (ps.map fun p => pyRstrip (p.getD [])))) ∧
    extract_text [] parse = .ok [] := by
  exact ⟨extract_text_pagesOf pdf_bytes hb ps, rfl⟩

/-- Witness for C8's amended theorem: the two-page `"Hello"`/`"World"`
document yields exactly `"Hello\n\n\n----- PAGE BREAK -----\n\n\nWorld"`,
and the empty input yields `""`. -/
theorem extract_text_joined_pages_case :
    extract_text [37]
        (.pages ([some "Hello".data, some "World".data].map PageRead.extracted)) =
      .ok "Hello\n\n\n----- PAGE BREAK -----\n\n\nWorld".data ∧
    extract_text [] (.pages []) = .ok [] := by
  have h := extract_text_joined_pages [37] (by decide)
    [some "Hello".data, some "World".data] (.pages [])
  exact ⟨h.1.trans (by decide), h.2⟩

/-- C10: `extract_text` right-strips each page's extracted text
individually before joining — the output is the join of the
`rstrip`ped page texts, and pre-stripping every page leaves the output
unchanged, so no page contributes trailing whitespace ahead of the
separator. -/
theorem extract_text_rstrips_each_page (pdf_bytes : List Nat)
    (hb : pdf_bytes ≠ []) (ts : List Str) :
    extract_text pdf_bytes (pagesOf (ts.map some)) =
      .ok (pyStrip (joinWith sepFull (ts.map pyRstrip))) ∧
    extract_text pdf_bytes (pagesOf ((ts.map pyRstrip).map some)) =
      extract_text pdf_bytes (pagesOf (ts.map some)) := by
  have key : ∀ us : List Str,
      (us.map some).map (fun p => pyRstrip (p.getD [])) = us.map pyRstrip := by
    intro us
    rw [List.map_map]
    exact List.map_congr_left fun a _ => rfl
  have h1 := extract_text_pagesOf pdf_bytes hb (ts.map some)
  have h2 := extract_text_pagesOf pdf_bytes hb ((ts.map pyRstrip).map some)
  rw [key ts] at h1
  rw [key (ts.map pyRstrip)] at h2
  have hidem : (ts.map pyRstrip).map pyRstrip = ts.map pyRstrip := by
    rw [List.map_map]
    exact List.map_congr_left fun a _ => pyRstrip_idem a
  rw [hidem] at h2
  exact ⟨h1, h2.trans h1.symm⟩

/-- Witness for C10: pages `"a "` and `"b"` — the trailing space of the
first page is stripped before the separator. -/
theorem extract_text_rstrips_each_page_case :
    extract_text [1] (pagesOf (["a ".data, "b".data].map some)) =
      .ok "a\n\n\n----- PAGE BREAK -----\n\n\nb".data := by
  have h := extract_text_rstrips_each_page [1] (by decide) ["a ".data, "b".data]
  exact h.1.trans (by decide)

/-! ### Claims about the outcome writes (C5, C6, C7) -/

/-- C5: on success, `mark_success` sets `raw_text` to the extracted
text, `processed` to true, `processed_at` to the current time,
increments `process_attempts` by one, clears `last_error`, sets
`bytes`/`mime` unconditionally from the latest attempt, sets
`downloaded_at` and `filename` only if previously unset
(first-write-wins), and sets `sha256` to the computed fingerprint. -/
theorem mark_success_transition (now : Nat) (txt : Str) (m fn : Option Str)
    (pb : List Nat) (sha : Str) (r : Row) :
    (mark_success now txt m fn pb sha r).raw_text = some txt ∧
    (mark_success now txt m fn pb sha r).processed = some true ∧
    (mark_success now txt m fn pb sha r).processed_at = some now ∧
    (mark_success now txt m fn pb sha r).process_attempts =
      r.process_attempts + 1 ∧
    (mark_success now txt m fn pb sha r).last_error = none ∧
    (mark_success now txt m fn pb sha r).bytes = some pb.length ∧
    (mark_success now txt m fn pb sha r).mime = m ∧
    (mark_success now txt m fn pb sha r).sha256 = some sha ∧
    (r.downloaded_at = none →
      (mark_success now txt m fn pb sha r).downloaded_at = some now) ∧
    (∀ t0, r.downloaded_at = some t0 →
      (mark_success now txt m fn pb sha r).downloaded_at = some t0) ∧
    (r.filename = none → (mark_success now txt m fn pb sha r).filename = fn) ∧
    (∀ s0, r.filename = some s0 →
      (mark_success now txt m fn pb sha r).filename = some s0) := by
  refine ⟨rfl, rfl, rfl, rfl, rfl, rfl, rfl, rfl, ?_, ?_, ?_, ?_⟩
  · intro h
    simp [mark_success, h]
  · intro t0 h
    simp [mark_success, h]
  · intro h
    simp [mark_success, h]
  · intro s0 h
    simp [mark_success, h]

/-- Witness for C5 at a concrete row: `downloaded_at` previously unset
is stamped with the current time, while a previously set `filename` is
kept. -/
theorem mark_success_transition_case :
    (mark_success 9 "t".data (some "m".data) (some "g".data) [1, 2] "s".data
      ⟨0, some "u".data, none, some false, 0, none, none, none, none, none,
        some "f".data, none⟩).downloaded_at = some 9 ∧
    (mark_success 9 "t".data (some "m".data) (some "g".data) [1, 2] "s".data
      ⟨0, some "u".data, none, some false, 0, none, none, none, none, none,
        some "f".data, none⟩).filename = some "f".data := by
  have h := mark_success_transition 9 "t".data (some "m".data) (some "g".data)
    [1, 2] "s".data
    ⟨0, some "u".data, none, some false, 0, none, none, none, none, none,
      some "f".data, none⟩
  exact ⟨h.2.2.2.2.2.2.2.2.1 rfl, h.2.2.2.2.2.2.2.2.2.2.2 "f".data rfl⟩

/-- C6: both committed outcomes — success and failure — increment the
row's `process_attempts` by exactly one, and neither (these being the
only row-mutating operations of the engine) ever decreases it. -/
theorem process_attempts_plus_one (now : Nat) (txt : Str) (m fn : Option Str)
    (pb : List Nat) (sha err : Str) (r : Row) :
    (mark_success now txt m fn pb sha r).process_attempts =
      r.process_attempts + 1 ∧
    (mark_failure err r).process_attempts = r.process_attempts + 1 ∧
    r.process_attempts < (mark_success now txt m fn pb sha r).process_attempts ∧
    r.process_attempts < (mark_failure err r).process_attempts :=
  ⟨rfl, rfl, Nat.lt_succ_self _, Nat.lt_succ_self _⟩

/-- C7: `mark_failure` modifies only `process_attempts` (incremented by
one), `last_error` (the message truncated to 800 characters) and
`processed` (false); every other field — `processed_at`, `raw_text`,
`sha256`, `downloaded_at`, `bytes`, `mime`, `filename`, `pdf_url`,
`id` — is unchanged, so a failure never overwrites a previously set
`processed_at`. -/
theorem mark_failure_frame (err : Str) (r : Row) :
    (mark_failure err r).process_attempts = r.process_attempts + 1 ∧
    (mark_failure err r).last_error = some (err.take 800) ∧
    (mark_failure err r).processed = some false ∧
    (mark_failure err r).processed_at = r.processed_at ∧
    (mark_failure err r).raw_text = r.raw_text ∧
    (mark_failure err r).sha256 = r.sha256 ∧
    (mark_failure err r).downloaded_at = r.downloaded_at ∧
    (mark_failure err r).bytes = r.bytes ∧
    (mark_failure err r).mime = r.mime ∧
    (mark_failure err r).filename = r.filename ∧
    (mark_failure err r).pdf_url = r.pdf_url ∧
    (mark_failure err r).id = r.id :=
  ⟨rfl, rfl, rfl, rfl, rfl, rfl, rfl, rfl, rfl, rfl, rfl, rfl⟩

/-! ### Claims about `fetch_batch` (C4, C1) -/

/-- C4: a claim returns at most the batch size of rows; every returned
row satisfies `processed IS DISTINCT FROM TRUE`, has a non-null
`pdf_url`, and has `process_attempts` strictly below the ceiling; the
result is ordered by ascending identifier; and a row at or above the
attempt ceiling is never returned, regardless of its `processed`
flag. -/
theorem fetch_batch_contract (N M : Nat) (locked : List Nat)
    (table : List Row) :
    (fetch_batch N M locked table).length ≤ N ∧
    (∀ r ∈ fetch_batch N M locked table,
        r.processed ≠ some true ∧ r.pdf_url ≠ none ∧
          r.process_attempts < M) ∧
    List.Sorted rowLE (fetch_batch N M locked table) ∧
    (∀ r, M ≤ r.process_attempts → r ∉ fetch_batch N M locked table) := by
  have hmem : ∀ r ∈ fetch_batch N M locked table,
      r.processed ≠ some true ∧ r.pdf_url ≠ none ∧ r.process_attempts < M := by
    intro r hr
    have h1 : r ∈ List.insertionSort rowLE
        (table.filter fun x => eligible M x && !(locked.contains x.id)) :=
      List.take_subset _ _ hr
    have h2 := (List.perm_insertionSort rowLE _).subset h1
    have hcond := (List.mem_filter.mp h2).2
    simp only [eligible, Bool.and_eq_true, Bool.not_eq_true', beq_eq_false_iff_ne,
      ne_eq, decide_eq_true_eq] at hcond
    exact ⟨hcond.1.1.1, Option.isSome_iff_ne_none.mp hcond.1.1.2, hcond.1.2⟩
  refine ⟨List.length_take_le _ _, hmem, ?_, ?_⟩
  · exact (List.sorted_insertionSort rowLE _).sublist (List.take_sublist _ _)
  · intro r hM hr
    exact absurd (hmem r hr).2.2 (Nat.not_lt.mpr hM)

/-- Witness for C4: a table holding an exhausted row (5 attempts at
ceiling 5), an already-processed row, and one eligible row: the claim
returns at most 2 rows and never the exhausted row. -/
theorem fetch_batch_contract_case :
    (fetch_batch 2 5 []
        [⟨1, some "a".data, none, some false, 5, none, none, none, none, none,
           none, none⟩,
         ⟨2, some "b".data, none, some true, 0, none, none, none, none, none,
           none, none⟩,
         ⟨3, some "c".data, none, some false, 0, none, none, none, none, none,
           none, none⟩]).length ≤ 2 ∧
    (⟨1, some "a".data, none, some false, 5, none, none, none, none, none,
        none, none⟩ : Row) ∉
      fetch_batch 2 5 []
        [⟨1, some "a".data, none, some false, 5, none, none, none, none, none,
           none, none⟩,
         ⟨2, some "b".data, none, some true, 0, none, none, none, none, none,
           none, none⟩,
         ⟨3, some "c".data, none, some false, 0, none, none, none, none, none,
           none, none⟩] := by
  have h := fetch_batch_contract 2 5 []
    [⟨1, some "a".data, none, some false, 5, none, none, none, none, none,
       none, none⟩,
     ⟨2, some "b".data, none, some true, 0, none, none, none, none, none,
       none, none⟩,
     ⟨3, some "c".data, none, some false, 0, none, none, none, none, none,
       none, none⟩]
  exact ⟨h.1, h.2.2.2 _ (by decide)⟩

/-- C1: two claim requests racing on the same table, serialized at the
storage layer by row locks — the second sees exactly the locks taken by
the first and, by `SKIP LOCKED`, skips those rows without blocking
(the claim is a total function of the lock set, never a wait) — return
disjoint row-identifier sets. -/
theorem fetch_batch_concurrent_disjoint (N M : Nat) (table : List Row) :
    ∀ r1 ∈ fetch_batch N M [] table,
      ∀ r2 ∈ fetch_batch N M ((fetch_batch N M [] table).map Row.id) table,
        r1.id ≠ r2.id := by
  intro r1 h1 r2 h2
  have h2' : r2 ∈ table.filter fun x =>
      eligible M x &&
        !(((fetch_batch N M [] table).map Row.id).contains x.id) :=
    (List.perm_insertionSort rowLE _).subset (List.take_subset _ _ h2)
  have hcond := (List.mem_filter.mp h2').2
  have hnot : r2.id ∉ (fetch_batch N M [] table).map Row.id := by
    simp only [Bool.and_eq_true] at hcond
    simpa using hcond.2
  intro he
  exact hnot (he ▸ List.mem_map_of_mem Row.id h1)

/-- Witness for C1: with batch size 1 and two eligible rows, the first
claim takes row 1, the second (skipping the locked row 1) takes row 2;
their identifiers differ. -/
theorem fetch_batch_concurrent_disjoint_case :
    (⟨1, some "a".data, none, some false, 0, none, none, none, none, none,
        none, none⟩ : Row).id ≠
      (⟨2, some "b".data, none, some false, 0, none, none, none, none, none,
        none, none⟩ : Row).id := by
  exact fetch_batch_concurrent_disjoint 1 5
    [⟨1, some "a".data, none, some false, 0, none, none, none, none, none,
       none, none⟩,
     ⟨2, some "b".data, none, some false, 0, none, none, none, none, none,
       none, none⟩]
    _ (by decide) _ (by decide)

/-! ### Claim C3: duplicate fingerprint is a per-row failure -/

/-- C3: when a row's success write violates the `sha256` uniqueness
constraint, the savepoint rolls the success write back (the row ends
exactly as `mark_failure` of its pre-state — none of the success
fields are written), the recorded failure still increments
`process_attempts`, and the batch loop continues with the remaining
rows (the outer transaction, modelled as the returned table, still
commits). -/
theorem duplicate_sha_row_failure (oracle : Row → Outcome) (table : List Row)
    (r : Row) (rest : List Row) (s f now : Nat) (txt : Str)
    (m fn : Option Str) (pb : List Nat) (sha : Str)
    (ho : oracle r = .success now txt m fn pb sha)
    (hdup : shaConflict table r.id sha = true) :
    processRow oracle table r =
      (updateRow r.id (mark_failure integrityErrMsg) table, false) ∧
    processRows oracle table (r :: rest) s f =
      processRows oracle (updateRow r.id (mark_failure integrityErrMsg) table)
        rest s (f + 1) ∧
    ∀ x ∈ table, x.id = r.id →
      mark_failure integrityErrMsg x ∈
        updateRow r.id (mark_failure integrityErrMsg) table ∧
      (mark_failure integrityErrMsg x).process_attempts =
        x.process_attempts + 1 ∧
      (mark_failure integrityErrMsg x).raw_text = x.raw_text ∧
      (mark_failure integrityErrMsg x).sha256 = x.sha256 ∧
      (mark_failure integrityErrMsg x).processed_at = x.processed_at ∧
      (mark_failure integrityErrMsg x).processed = some false := by
  have hrow : processRow oracle table r =
      (updateRow r.id (mark_failure integrityErrMsg) table, false) := by
    simp [processRow, ho, writeSuccess, hdup]
  refine ⟨hrow, ?_, ?_⟩
  · simp [processRows, hrow]
  · intro x hx hid
    refine ⟨?_, rfl, rfl, rfl, rfl, rfl⟩
    have hm : (if x.id = r.id then mark_failure integrityErrMsg x else x) ∈
        updateRow r.id (mark_failure integrityErrMsg) table :=
      List.mem_map_of_mem
        (fun r0 => if r0.id = r.id then mark_failure integrityErrMsg r0 else r0) hx
    rwa [if_pos hid] at hm

/-- Witness for C3: two rows whose URLs resolve to byte-identical PDFs —
row 1 already carries fingerprint `"s"`; processing row 2 with the same
fingerprint records a failure on row 2 (attempts 0 → 1, `raw_text` and
`sha256` untouched) and the batch loop moves on with the failure
counter bumped. -/
theorem duplicate_sha_row_failure_case :
    processRow
        (fun _ => Outcome.success 7 "t".data none none [1] "s".data)
        [⟨1, some "a".data, some "t".data, some true, 1, some 5, none, some 5,
           some 1, none, none, some "s".data⟩,
         ⟨2, some "b".data, none, some false, 0, none, none, none, none, none,
           none, none⟩]
        ⟨2, some "b".data, none, some false, 0, none, none, none, none, none,
          none, none⟩ =
      (updateRow 2 (mark_failure integrityErrMsg)
        [⟨1, some "a".data, some "t".data, some true, 1, some 5, none, some 5,
           some 1, none, none, some "s".data⟩,
         ⟨2, some "b".data, none, some false, 0, none, none, none, none, none,
           none, none⟩], false) ∧
    (mark_failure integrityErrMsg
        ⟨2, some "b".data, none, some false, 0, none, none, none, none, none,
          none, none⟩).process_attempts = 1 := by
  have h := duplicate_sha_row_failure
    (fun _ => Outcome.success 7 "t".data none none [1] "s".data)
    [⟨1, some "a".data, some "t".data, some true, 1, some 5, none, some 5,
       some 1, none, none, some "s".data⟩,
     ⟨2, some "b".data, none, some false, 0, none, none, none, none, none,
       none, none⟩]
    ⟨2, some "b".data, none, some false, 0, none, none, none, none, none,
      none, none⟩
    [] 0 0 7 "t".data none none [1] "s".data rfl (by decide)
  exact ⟨h.1, (h.2.2 _ (by decide) rfl).2.1⟩

/-! ### Claim C9: the run drains after a short batch -/

theorem fetch_batch_nil_locked (N M : Nat) (table : List Row) :
    fetch_batch N M [] table =
      (List.insertionSort rowLE (table.filter (eligible M))).take N := by
  simp [fetch_batch]

theorem fetch_batch_nil_locked_length (N M : Nat) (table : List Row)
    (h : (table.filter (eligible M)).length < N) :
    (fetch_batch N M [] table).length = (table.filter (eligible M)).length := by
  rw [fetch_batch_nil_locked, List.length_take,
    (List.perm_insertionSort rowLE _).length_eq]
  exact Nat.min_eq_right (Nat.le_of_lt h)

/-- C9: whenever the eligible backlog is smaller than the batch size,
the first batch claims exactly the backlog, and the run performs no
further claim after that batch — immediately ending when it claimed
zero rows, and right after committing it otherwise. -/
theorem run_stops_after_short_batch (N M fuel : Nat)
    (oracle : Row → Outcome) (table : List Row)
    (h : (table.filter (eligible M)).length < N) :
    (process_once N M oracle table).2.1 = (table.filter (eligible M)).length ∧
    mainLoop N M oracle (fuel + 1) table =
      if (table.filter (eligible M)).length = 0 then []
      else [(table.filter (eligible M)).length] := by
  have hlen := fetch_batch_nil_locked_length N M table h
  have h1 : (process_once N M oracle table).2.1 =
      (table.filter (eligible M)).length := by
    by_cases hE : (fetch_batch N M [] table).isEmpty
    · have hfe : fetch_batch N M [] table = [] := List.isEmpty_iff.mp hE
      rw [← hlen, hfe]
      simp [process_once, hfe]
    · simp [process_once, hE, hlen]
  refine ⟨h1, ?_⟩
  by_cases hK : (table.filter (eligible M)).length = 0
  · have hfe : fetch_batch N M [] table = [] :=
      List.length_eq_zero.mp (hlen.trans hK)
    simp [mainLoop, process_once, hfe, hK]
  · have hlt : (table.filter (eligible M)).length < N := h
    simp [mainLoop, h1, hK, hlt]

/-- Witness for C9: batch size 200 against a backlog of 50 eligible
rows — the first batch claims exactly 50 rows and the run ends after
that batch. -/
theorem run_stops_after_short_batch_case :
    (process_once 200 5 (fun _ => Outcome.failure "e".data)
        ((List.range 50).map fun i =>
          (⟨i, some "u".data, none, some false, 0, none, none, none, none,
            none, none, none⟩ : Row))).2.1 = 50 ∧
    mainLoop 200 5 (fun _ => Outcome.failure "e".data) 3
        ((List.range 50).map fun i =>
          (⟨i, some "u".data, none, some false, 0, none, none, none, none,
            none, none, none⟩ : Row)) = [50] := by
  have h := run_stops_after_short_batch 200 5 2
    (fun _ => Outcome.failure "e".data)
    ((List.range 50).map fun i =>
      (⟨i, some "u".data, none, some false, 0, none, none, none, none,
        none, none, none⟩ : Row))
    (by decide)
  exact ⟨h.1.trans (by decide), h.2.trans (by decide)⟩

/-! ### Claim C2: the HEAD size check is swallowed by its own handler -/

/-- C2 (divergence witness): the spec requires a URL whose HEAD probe
declares a Content-Length over the cap (40 MB declared, 30 MB cap) to
fail with a size-exceeded error before any body bytes are read; but the
`ValueError` raised in the HEAD block of `download_pdf` sits inside that
block's own `except Exception: pass`, so it is swallowed like any other
probe failure: the GET proceeds, body bytes are read, and the download
succeeds (the cap would only trip via the streaming counter). -/
theorem download_head_size_error_swallowed :
    30 * 1024 * 1024 < 41943040 ∧
    download_pdf 30
        (.ok ⟨some "application/pdf".data, some 41943040, some "a.pdf".data⟩)
        (.resp ⟨200, some "application/pdf".data, none, [[37, 80, 68, 70]]⟩) =
      ⟨.ok ([37, 80, 68, 70],
          ⟨some "application/pdf".data, none, some 4⟩), 4⟩ := by
  exact ⟨by decide, by decide⟩

end PdfEngine
